import Mathlib

/-!
Verification of the A2A host-agent adaptation service (`host_agent/api_app.py`).

The file shallowly embeds the event-to-response adaptation layer: the data
shapes the service inspects (events carrying content parts that are text,
function calls, or function responses, plus a final-response flag and
escalation metadata), the aggregation loop of `get_response_from_agent`
used by `POST /chat`, the frame generator of `generate_stream` used by
`POST /chat/stream`, the health endpoint and the startup handler.

Python conventions mirrored in the embedding:
- `Optional[T]` fields become `Option T`.
- Python truthiness: `None` is falsy; an empty list is falsy; an empty
  string is falsy; a pydantic model object is truthy whenever present;
  `Optional[bool]` is truthy only when it is `True`.
- Exceptions raised while invoking the runner or pulling the next event
  from its asynchronous iterator are modelled by `RunOutcome`: the runner
  yields a finite list of events and then either finishes normally or
  raises an exception (carried as its string form).  An exception can only
  be observed if the consumer loop is still iterating, which the
  definitions below reflect.
-/

set_option autoImplicit false

namespace HostAgent

/-- JSON-like values: payloads of tool calls and tool responses
(`dict`, `list`, `str`, numbers, booleans, `None` in the Python source). -/
inductive JsonVal where
  | null
  | bool (b : Bool)
  | num (n : Int)
  | str (s : String)
  | arr (xs : List JsonVal)
  | obj (fields : List (String × JsonVal))
deriving Repr

/-- `google.genai.types.FunctionCall`: pydantic model with optional
fields `id`, `args`, `name` (in that declaration order). -/
structure FunctionCall where
  id : Option String
  args : Option JsonVal
  name : Option String
deriving Repr

/-- `FunctionCall.model_dump(exclude_none=True)`: serialize the whole
object as a mapping, omitting fields that are `None`. -/
def FunctionCall.model_dump_exclude_none (fc : FunctionCall) : List (String × JsonVal) :=
  (match fc.id with
   | some i => [("id", JsonVal.str i)]
   | none => []) ++
  (match fc.args with
   | some a => [("args", a)]
   | none => []) ++
  (match fc.name with
   | some n => [("name", JsonVal.str n)]
   | none => [])

/-- `google.genai.types.FunctionResponse`: the service reads its `name`
and `response` fields.  `JsonVal.null` stands for a `None` payload. -/
structure FunctionResponse where
  name : Option String
  response : JsonVal
deriving Repr

/-- `google.genai.types.Part`: the service reads `text`, `function_call`
and `function_response`. -/
structure Part where
  text : Option String
  function_call : Option FunctionCall
  function_response : Option FunctionResponse
deriving Repr

/-- `google.genai.types.Content`: `parts` is `Optional[list[Part]]`. -/
structure Content where
  parts : Option (List Part)
deriving Repr

/-- `google.adk.events.EventActions`: the service reads the optional
`escalate` flag. -/
structure EventActions where
  escalate : Option Bool
deriving Repr

/-- `google.adk.events.Event`, restricted to what the service inspects:
`content`, `actions`, `error_message`, and the result of
`is_final_response()` (modelled as the flag `is_final`). -/
structure Event where
  content : Option Content
  actions : Option EventActions
  error_message : Option String
  is_final : Bool
deriving Repr

/-- Python guard `event.content and event.content.parts`: the content
object is present and its parts list is present and non-empty. -/
def Event.hasVisibleParts (e : Event) : Bool :=
  match e.content with
  | some c =>
    match c.parts with
    | some ps => !ps.isEmpty
    | none => false
  | none => false

/-- The parts the loops iterate over.  When the guard
`event.content and event.content.parts` fails this is `[]`, matching the
skipped `for` loop. -/
def Event.visibleParts (e : Event) : List Part :=
  match e.content with
  | some c =>
    match c.parts with
    | some ps => ps
    | none => []
  | none => []

/-- Python guard `event.actions and event.actions.escalate`. -/
def Event.escalates (e : Event) : Bool :=
  match e.actions with
  | some a =>
    match a.escalate with
    | some b => b
    | none => false
  | none => false

/-- `event.error_message or 'No specific message.'` — Python `or`
falls through on `None` and on the empty string. -/
def Event.errorMessageOrDefault (e : Event) : String :=
  match e.error_message with
  | some m => if m = "" then "No specific message." else m
  | none => "No specific message."

/-- List-comprehension filter `if p.text`: keep the text only when it is
present and non-empty (Python string truthiness). -/
def truthyText (p : Part) : Option String :=
  match p.text with
  | some t => if t = "" then none else some t
  | none => none

/-- The reply computed from the event that passed `is_final_response()`:
lines 112-118 of `get_response_from_agent` and lines 235-240 of
`generate_stream` (the two sites are textually identical). -/
def finalReply (e : Event) : String :=
  if e.hasVisibleParts then
    String.join ((e.visibleParts).filterMap truthyText)
  else if e.escalates then
    "Agent escalated: " ++ e.errorMessageOrDefault
  else ""

/-- First-match association lookup, the model of Python
`"response" in d` followed by `d["response"]` (dict keys are unique, so
first match is the match). -/
def lookupKey : List (String × JsonVal) → String → Option JsonVal
  | [], _ => none
  | (k, v) :: rest, key => if k = key then some v else lookupKey rest key

/-- Lines 97-104 / 222-226: if the tool-result payload is a dict
containing the key `"response"`, keep only that nested value, otherwise
keep the whole payload. -/
def formatResponseContent (rc : JsonVal) : JsonVal :=
  match rc with
  | JsonVal.obj fields =>
    match lookupKey fields "response" with
    | some v => v
    | none => JsonVal.obj fields
  | other => other

/-- A record appended to `tool_calls`
(`{"name": ..., "arguments": ...}`). -/
structure ToolCall where
  name : Option String
  arguments : List (String × JsonVal)
deriving Repr

/-- A record appended to `tool_responses`
(`{"name": ..., "response": ...}`). -/
structure ToolResponse where
  name : Option String
  response : JsonVal
deriving Repr

/-- The inner `for part in event.content.parts` loop (lines 89-110):
a part with a function call appends a tool-call record; otherwise a part
with a function response appends a tool-response record; other parts are
skipped. -/
def processParts : List Part → List ToolCall × List ToolResponse → List ToolCall × List ToolResponse
  | [], acc => acc
  | p :: ps, (tcs, trs) =>
    match p.function_call with
    | some fc => processParts ps (tcs ++ [⟨fc.name, fc.model_dump_exclude_none⟩], trs)
    | none =>
      match p.function_response with
      | some fr => processParts ps (tcs, trs ++ [⟨fr.name, formatResponseContent fr.response⟩])
      | none => processParts ps (tcs, trs)

/-- The aggregate returned by `get_response_from_agent` on success. -/
structure AgentResult where
  response : String
  tool_calls : List ToolCall
  tool_responses : List ToolResponse
deriving Repr

/-- One invocation of the runner's asynchronous iterator: it yields the
listed events and then either finishes (`ok`) or raises an exception
whose string form is `exn` (`err`). -/
inductive RunOutcome where
  | ok (events : List Event)
  | err (events : List Event) (exn : String)
deriving Repr

/-- The `async for event in events_iterator` loop of
`get_response_from_agent` (lines 87-119).  `oexn` is the exception the
iterator will raise after its last event, if any; it is observed only
when the loop actually asks for the next event, i.e. when no earlier
event passed `is_final_response()` (the `break` on line 119 abandons the
iterator). -/
def runnerLoop : List Event → Option String → List ToolCall × List ToolResponse → Except String AgentResult
  | [], none, (tcs, trs) => Except.ok ⟨"", tcs, trs⟩
  | [], some exn, _ => Except.error exn
  | e :: rest, oexn, acc =>
    let (tcs, trs) := processParts e.visibleParts acc
    if e.is_final then Except.ok ⟨finalReply e, tcs, trs⟩
    else runnerLoop rest oexn (tcs, trs)

/-- An `HTTPException(status_code=..., detail=...)`. -/
structure HttpError where
  status_code : Nat
  detail : String
deriving Repr

/-- `get_response_from_agent` (lines 72-129): run the consumer loop;
any exception raised during invocation or iteration is re-raised as an
`HTTPException` with status 500 and the exception's string form in the
detail. -/
def get_response_from_agent (run : RunOutcome) : Except HttpError AgentResult :=
  match run with
  | RunOutcome.ok events =>
    match runnerLoop events none ([], []) with
    | Except.ok res => Except.ok res
    | Except.error e => Except.error ⟨500, "Error processing request: " ++ e⟩
  | RunOutcome.err events exn =>
    match runnerLoop events (some exn) ([], []) with
    | Except.ok res => Except.ok res
    | Except.error e => Except.error ⟨500, "Error processing request: " ++ e⟩

/-- The `ChatResponse` pydantic model (lines 62-65). -/
structure ChatResponse where
  response : String
  tool_calls : Option (List ToolCall)
  tool_responses : Option (List ToolResponse)
deriving Repr

/-- The `POST /chat` handler (lines 167-192): forwards the aggregate on
success; re-raises an `HTTPException` unchanged (`except HTTPException:
raise`). -/
def chat (run : RunOutcome) : Except HttpError ChatResponse :=
  match get_response_from_agent run with
  | Except.ok res => Except.ok ⟨res.response, some res.tool_calls, some res.tool_responses⟩
  | Except.error he => Except.error he

/-- One SSE frame of `POST /chat/stream`: the JSON object serialized into
a `data: ...` line, by its `type` discriminator. -/
inductive Frame where
  | tool_call (name : Option String) (arguments : List (String × JsonVal))
  | tool_response (name : Option String) (response : JsonVal)
  | final_response (response : String)
  | error (error : String)
deriving Repr

/-- The inner `for part in event.content.parts` loop of
`generate_stream` (lines 213-233): each classified part is immediately
emitted as a frame. -/
def partFrames : List Part → List Frame
  | [] => []
  | p :: ps =>
    match p.function_call with
    | some fc => Frame.tool_call fc.name fc.model_dump_exclude_none :: partFrames ps
    | none =>
      match p.function_response with
      | some fr => Frame.tool_response fr.name (formatResponseContent fr.response) :: partFrames ps
      | none => partFrames ps

/-- The `async for` loop of `generate_stream` (lines 211-253), including
its `except` clause: events are consumed until one passes
`is_final_response()` (then a `final_response` frame is emitted and the
loop `break`s, abandoning the iterator), and an exception observed while
pulling the next event yields a single `error` frame and ends the
stream. -/
def streamLoop : List Event → Option String → List Frame
  | [], none => []
  | [], some exn => [Frame.error exn]
  | e :: rest, oexn =>
    let fs := partFrames e.visibleParts
    if e.is_final then fs ++ [Frame.final_response (finalReply e)]
    else fs ++ streamLoop rest oexn

/-- `generate_stream` (lines 203-253) applied to one runner invocation. -/
def generate_stream (run : RunOutcome) : List Frame :=
  match run with
  | RunOutcome.ok events => streamLoop events none
  | RunOutcome.err events exn => streamLoop events (some exn)

/-- The `HealthResponse` pydantic model (lines 67-70). -/
structure HealthResponse where
  status : String
  service : String
  version : String
deriving Repr, DecidableEq

/-- `health_check` (lines 144-151): a constant record. -/
def health_check : HealthResponse :=
  ⟨"healthy", "a2a-host-agent", "1.0.0"⟩

/-- Modelled from the spec: the HTTP status code paired with the
`/health` body.  The 200 status is FastAPI's implicit success status for
a handler that returns normally, framework behavior not present in this
repository's sources; the spec states it explicitly. -/
def healthEndpoint : Nat × HealthResponse :=
  (200, health_check)

/-- `startup_event` (lines 131-142), as a function of the outcome of
`SESSION_SERVICE.create_session` (`Except.error e` models the call
raising an exception with string form `e`).  The result is the list of
log lines printed; the handler itself never propagates the exception,
which the `Except.ok` result records. -/
def startup_event (create : Except String Unit) : Except String (List String) :=
  match create with
  | Except.ok _ =>
    Except.ok ["Creating ADK session...", "ADK session created successfully."]
  | Except.error e =>
    Except.ok ["Creating ADK session...", "Error creating ADK session: " ++ e]

/-!
Specification-side reference definitions.  These restate, directly from
the spec's wording, what one event contributes to the aggregate or the
stream; the theorems below relate the loop implementations to them.
-/

/-- Spec side: the tool-call record a single part contributes, if any. -/
def partToolCallRec (p : Part) : Option ToolCall :=
  match p.function_call with
  | some fc => some ⟨fc.name, fc.model_dump_exclude_none⟩
  | none => none

/-- Spec side: the tool-response record a single part contributes, if
any (a part carrying both shapes counts as a call, per the `elif`). -/
def partToolResponseRec (p : Part) : Option ToolResponse :=
  match p.function_call with
  | some _ => none
  | none =>
    match p.function_response with
    | some fr => some ⟨fr.name, formatResponseContent fr.response⟩
    | none => none

/-- Spec side: the stream frame a single part contributes, if any. -/
def partFrameRec (p : Part) : Option Frame :=
  match p.function_call with
  | some fc => some (Frame.tool_call fc.name fc.model_dump_exclude_none)
  | none =>
    match p.function_response with
    | some fr => some (Frame.tool_response fr.name (formatResponseContent fr.response))
    | none => none

/-- Spec side: all tool-call records one event contributes, in part
order. -/
def eventToolCalls (e : Event) : List ToolCall :=
  e.visibleParts.filterMap partToolCallRec

/-- Spec side: all tool-response records one event contributes, in part
order. -/
def eventToolResponses (e : Event) : List ToolResponse :=
  e.visibleParts.filterMap partToolResponseRec

/-- Spec side: all tool frames one event contributes, in part order. -/
def eventFrames (e : Event) : List Frame :=
  e.visibleParts.filterMap partFrameRec

/-- Whether some event of the sequence is flagged final. -/
def hasFinal : List Event → Bool
  | [] => false
  | e :: rest => e.is_final || hasFinal rest

/-- Spec side: the events the consumer loop observes — everything up to
and including the first final-flagged event (the whole sequence when no
event is flagged final). -/
def observedEvents : List Event → List Event
  | [] => []
  | e :: rest => if e.is_final then [e] else e :: observedEvents rest

/-- The first final-flagged event of a sequence, if any. -/
def firstFinal : List Event → Option Event
  | [] => none
  | e :: rest => if e.is_final then some e else firstFinal rest

/-- Spec side: the reply of a consumed sequence — determined by the
first final-flagged event, empty when there is none. -/
def replyOf (events : List Event) : String :=
  match firstFinal events with
  | some e => finalReply e
  | none => ""

/-- Frame discriminator: `final_response` frames. -/
def isFinalFrame : Frame → Bool
  | Frame.final_response _ => true
  | _ => false

/-- Frame discriminator: `error` frames. -/
def isErrorFrame : Frame → Bool
  | Frame.error _ => true
  | _ => false

/-- Claim side (C2's wording): the event "carries textual content
parts" — some visible part has truthy text. -/
def Event.carriesTextualParts (e : Event) : Bool :=
  e.visibleParts.any (fun p => (truthyText p).isSome)

/-- Claim side (C2's wording): reply rule keyed on *textual* content
parts — text concatenation when the event carries textual parts,
escalation message when instead it signals an escalation, else empty. -/
def claimedReplyByTextualParts (e : Event) : String :=
  if e.carriesTextualParts then
    String.join ((e.visibleParts).filterMap truthyText)
  else if e.escalates then
    "Agent escalated: " ++ e.errorMessageOrDefault
  else ""

/-!
Loop-characterization lemmas shared by the claim theorems.
-/

theorem processParts_eq (ps : List Part) (tcs : List ToolCall) (trs : List ToolResponse) :
    processParts ps (tcs, trs) =
      (tcs ++ ps.filterMap partToolCallRec, trs ++ ps.filterMap partToolResponseRec) := by
  induction ps generalizing tcs trs with
  | nil => simp [processParts]
  | cons p ps ih =>
    cases hc : p.function_call with
    | some fc =>
      simp [processParts, hc, partToolCallRec, partToolResponseRec, ih]
    | none =>
      cases hr : p.function_response with
      | some fr =>
        simp [processParts, hc, hr, partToolCallRec, partToolResponseRec, ih]
      | none =>
        simp [processParts, hc, hr, partToolCallRec, partToolResponseRec, ih]

theorem partFrames_eq (ps : List Part) :
    partFrames ps = ps.filterMap partFrameRec := by
  induction ps with
  | nil => simp [partFrames]
  | cons p ps ih =>
    cases hc : p.function_call with
    | some fc => simp [partFrames, hc, partFrameRec, ih]
    | none =>
      cases hr : p.function_response with
      | some fr => simp [partFrames, hc, hr, partFrameRec, ih]
      | none => simp [partFrames, hc, hr, partFrameRec, ih]

theorem runnerLoop_none_eq (events : List Event) (tcs : List ToolCall) (trs : List ToolResponse) :
    runnerLoop events none (tcs, trs) =
      Except.ok ⟨replyOf events,
        tcs ++ (observedEvents events).flatMap eventToolCalls,
        trs ++ (observedEvents events).flatMap eventToolResponses⟩ := by
  induction events generalizing tcs trs with
  | nil => simp [runnerLoop, observedEvents, replyOf, firstFinal]
  | cons e rest ih =>
    cases hf : e.is_final with
    | true =>
      simp [runnerLoop, processParts_eq, hf, observedEvents, replyOf, firstFinal,
        eventToolCalls, eventToolResponses]
    | false =>
      simp [runnerLoop, processParts_eq, hf, observedEvents, replyOf, firstFinal,
        eventToolCalls, eventToolResponses, ih]

theorem runnerLoop_some_of_noFinal (events : List Event) (exn : String)
    (tcs : List ToolCall) (trs : List ToolResponse) (h : hasFinal events = false) :
    runnerLoop events (some exn) (tcs, trs) = Except.error exn := by
  induction events generalizing tcs trs with
  | nil => simp [runnerLoop]
  | cons e rest ih =>
    simp only [hasFinal, Bool.or_eq_false_iff] at h
    simp [runnerLoop, processParts_eq, h.1, ih _ _ h.2]

theorem runnerLoop_append_of_final (events : List Event) (h : hasFinal events = true)
    (suffix : List Event) (oexn : Option String) (acc : List ToolCall × List ToolResponse) :
    runnerLoop (events ++ suffix) oexn acc = runnerLoop events oexn acc := by
  induction events generalizing acc with
  | nil => simp [hasFinal] at h
  | cons e rest ih =>
    obtain ⟨tcs, trs⟩ := acc
    cases hf : e.is_final with
    | true => simp [runnerLoop, processParts_eq, hf]
    | false =>
      have hrest : hasFinal rest = true := by
        simpa [hasFinal, hf] using h
      simp [runnerLoop, processParts_eq, hf, ih hrest]

theorem observedEvents_of_noFinal (events : List Event) (h : hasFinal events = false) :
    observedEvents events = events := by
  induction events with
  | nil => simp [observedEvents]
  | cons e rest ih =>
    simp only [hasFinal, Bool.or_eq_false_iff] at h
    simp [observedEvents, h.1, ih h.2]

theorem firstFinal_of_noFinal (events : List Event) (h : hasFinal events = false) :
    firstFinal events = none := by
  induction events with
  | nil => simp [firstFinal]
  | cons e rest ih =>
    simp only [hasFinal, Bool.or_eq_false_iff] at h
    simp [firstFinal, h.1, ih h.2]

theorem exists_first_final (events : List Event) (h : hasFinal events = true) :
    ∃ pre e post, events = pre ++ e :: post ∧ hasFinal pre = false ∧
      e.is_final = true ∧ firstFinal events = some e ∧
      observedEvents events = pre ++ [e] := by
  induction events with
  | nil => simp [hasFinal] at h
  | cons e rest ih =>
    cases hf : e.is_final with
    | true =>
      exact ⟨[], e, rest, by simp, by simp [hasFinal], hf,
        by simp [firstFinal, hf], by simp [observedEvents, hf]⟩
    | false =>
      have hrest : hasFinal rest = true := by simpa [hasFinal, hf] using h
      obtain ⟨pre, e', post, heq, hpre, he', hff, hobs⟩ := ih hrest
      exact ⟨e :: pre, e', post, by simp [heq], by simp [hasFinal, hf, hpre], he',
        by simp [firstFinal, hf, hff], by simp [observedEvents, hf, hobs]⟩

theorem replyOf_decomp (pre : List Event) (e : Event) (post : List Event)
    (hpre : hasFinal pre = false) (he : e.is_final = true) :
    replyOf (pre ++ e :: post) = finalReply e := by
  induction pre with
  | nil => simp [replyOf, firstFinal, he]
  | cons p ps ih =>
    simp only [hasFinal, Bool.or_eq_false_iff] at hpre
    simpa [replyOf, firstFinal, hpre.1] using ih hpre.2

theorem streamLoop_none_of_noFinal (events : List Event) (h : hasFinal events = false) :
    streamLoop events none = events.flatMap eventFrames := by
  induction events with
  | nil => simp [streamLoop]
  | cons e rest ih =>
    simp only [hasFinal, Bool.or_eq_false_iff] at h
    simp [streamLoop, partFrames_eq, h.1, ih h.2, eventFrames]

theorem streamLoop_some_of_noFinal (events : List Event) (exn : String)
    (h : hasFinal events = false) :
    streamLoop events (some exn) = events.flatMap eventFrames ++ [Frame.error exn] := by
  induction events with
  | nil => simp [streamLoop]
  | cons e rest ih =>
    simp only [hasFinal, Bool.or_eq_false_iff] at h
    simp [streamLoop, partFrames_eq, h.1, ih h.2, eventFrames]

theorem streamLoop_decomp (pre : List Event) (e : Event) (post : List Event)
    (oexn : Option String) (hpre : hasFinal pre = false) (he : e.is_final = true) :
    streamLoop (pre ++ e :: post) oexn =
      (pre ++ [e]).flatMap eventFrames ++ [Frame.final_response (finalReply e)] := by
  induction pre with
  | nil => simp [streamLoop, partFrames_eq, he, eventFrames]
  | cons p ps ih =>
    simp only [hasFinal, Bool.or_eq_false_iff] at hpre
    simp [streamLoop, partFrames_eq, hpre.1, ih hpre.2, eventFrames]

theorem eventFrames_no_finalFrame (e : Event) (f : Frame) (hf : f ∈ eventFrames e) :
    isFinalFrame f = false := by
  simp only [eventFrames, List.mem_filterMap] at hf
  obtain ⟨p, _, hp⟩ := hf
  unfold partFrameRec at hp
  cases hc : p.function_call with
  | some fc =>
    simp [hc] at hp
    simp [← hp, isFinalFrame]
  | none =>
    cases hr : p.function_response with
    | some fr =>
      simp [hc, hr] at hp
      simp [← hp, isFinalFrame]
    | none => simp [hc, hr] at hp

theorem eventFrames_no_errorFrame (e : Event) (f : Frame) (hf : f ∈ eventFrames e) :
    isErrorFrame f = false := by
  simp only [eventFrames, List.mem_filterMap] at hf
  obtain ⟨p, _, hp⟩ := hf
  unfold partFrameRec at hp
  cases hc : p.function_call with
  | some fc =>
    simp [hc] at hp
    simp [← hp, isErrorFrame]
  | none =>
    cases hr : p.function_response with
    | some fr =>
      simp [hc, hr] at hp
      simp [← hp, isErrorFrame]
    | none => simp [hc, hr] at hp

/-!
Concrete sample data used by witnesses and counterexamples.
-/

/-- A sample function call with all fields set. -/
def sampleFc : FunctionCall :=
  ⟨some "id1", some (JsonVal.obj [("city", JsonVal.str "Paris")]), some "get_weather"⟩

/-- A part carrying `sampleFc`. -/
def sampleCallPart : Part := ⟨none, some sampleFc, none⟩

/-- A part carrying a function response whose payload wraps the useful
value under a `"response"` key. -/
def sampleRespPart : Part :=
  ⟨none, none, some ⟨some "get_weather",
    JsonVal.obj [("response", JsonVal.str "sunny"), ("other", JsonVal.str "Y")]⟩⟩

/-- A plain text part. -/
def sampleTextPart : Part := ⟨some "Here is the weather.", none, none⟩

/-- A non-final event carrying one tool call and one tool response. -/
def sampleToolEvent : Event :=
  ⟨some ⟨some [sampleCallPart, sampleRespPart]⟩, none, none, false⟩

/-- A final-flagged event carrying one text part. -/
def sampleFinalEvent : Event :=
  ⟨some ⟨some [sampleTextPart]⟩, none, none, true⟩

/-- A stray event the runner might still emit after the final one. -/
def sampleExtraEvent : Event :=
  ⟨some ⟨some [⟨some "stray text", none, none⟩, sampleCallPart]⟩, none, none, false⟩

/-- A final-flagged event whose only visible part is a function call
(no textual part), and which also signals an escalation with error
message `"boom"`. -/
def escalatingToolOnlyFinalEvent : Event :=
  ⟨some ⟨some [sampleCallPart]⟩, some ⟨some true⟩, some "boom", true⟩

/-- A final-flagged event with no content, signalling an escalation
that carries no error message. -/
def escalationNoMessageFinalEvent : Event :=
  ⟨none, some ⟨some true⟩, none, true⟩

/-- A non-final event with no content at all. -/
def plainNonFinalEvent : Event := ⟨none, none, none, false⟩

/-- A single-event sequence carrying one function-response part with the
given name and payload. -/
def respEvent (name : Option String) (payload : JsonVal) : Event :=
  ⟨some ⟨some [⟨none, none, some ⟨name, payload⟩⟩]⟩, none, none, false⟩

/-- A single-event sequence carrying one function-call part. -/
def callEvent (fc : FunctionCall) : Event :=
  ⟨some ⟨some [⟨none, some fc, none⟩]⟩, none, none, false⟩

/-!
Claim theorems.
-/

/-- C1: for every runner event sequence, the `/chat` response's
`tool_calls` and `tool_responses` are order-preserving reflections of
the function-call and function-response parts of the events up to and
including the first final-flagged event (each function-call part one
tool-call record, each function-response part one tool-response record,
in arrival order), and events after the first final-flagged one are
never reflected: extending the sequence past a final-flagged event does
not change the result at all. -/
theorem chat_tool_lists_reflect_observed_events (events : List Event) :
    Except.map AgentResult.tool_calls (get_response_from_agent (RunOutcome.ok events)) =
      Except.ok ((observedEvents events).flatMap eventToolCalls) ∧
    Except.map AgentResult.tool_responses (get_response_from_agent (RunOutcome.ok events)) =
      Except.ok ((observedEvents events).flatMap eventToolResponses) ∧
    (hasFinal events = true →
      ∀ suffix : List Event,
        get_response_from_agent (RunOutcome.ok (events ++ suffix)) =
          get_response_from_agent (RunOutcome.ok events)) := by
  refine ⟨?_, ?_, ?_⟩
  · simp [get_response_from_agent, runnerLoop_none_eq, Except.map]
  · simp [get_response_from_agent, runnerLoop_none_eq, Except.map]
  · intro h suffix
    simp [get_response_from_agent, runnerLoop_append_of_final events h]

/-- Witness for C1 at a concrete run: one tool event, then a final
event, then a stray event that must change nothing. -/
theorem chat_tool_lists_reflect_observed_events_witness :
    (Except.map AgentResult.tool_calls
        (get_response_from_agent (RunOutcome.ok [sampleToolEvent, sampleFinalEvent])) =
      Except.ok ((observedEvents [sampleToolEvent, sampleFinalEvent]).flatMap eventToolCalls)) ∧
    get_response_from_agent (RunOutcome.ok ([sampleToolEvent, sampleFinalEvent] ++ [sampleExtraEvent])) =
      get_response_from_agent (RunOutcome.ok [sampleToolEvent, sampleFinalEvent]) :=
  ⟨(chat_tool_lists_reflect_observed_events [sampleToolEvent, sampleFinalEvent]).1,
   (chat_tool_lists_reflect_observed_events [sampleToolEvent, sampleFinalEvent]).2.2
     rfl [sampleExtraEvent]⟩

/-- C2 counterexample: the claim keys the reply rule on the final event
carrying *textual* content parts, but the code keys it on carrying any
content parts at all.  A final event whose only part is a function call
and which signals an escalation with message `"boom"` has no textual
parts, so the claim predicts `"Agent escalated: boom"`, while `/chat`
computes the empty string (the code's first branch fires because a part
is present, and joins zero texts). -/
theorem chat_reply_textual_parts_rule_refuted :
    escalatingToolOnlyFinalEvent.is_final = true ∧
    escalatingToolOnlyFinalEvent.carriesTextualParts = false ∧
    escalatingToolOnlyFinalEvent.escalates = true ∧
    claimedReplyByTextualParts escalatingToolOnlyFinalEvent = "Agent escalated: boom" ∧
    Except.map AgentResult.response
        (get_response_from_agent (RunOutcome.ok [escalatingToolOnlyFinalEvent])) =
      Except.ok "" ∧
    ("" : String) ≠ "Agent escalated: boom" := by
  refine ⟨rfl, rfl, rfl, rfl, rfl, ?_⟩
  decide

/-- C2 (amended: the reply rule is keyed on the final event carrying
content parts, not textual ones): for every event sequence, the `/chat`
reply is determined by the first final-flagged event — if it carries
content parts, the reply is the concatenation, in order, of its truthy
texts (empty when none of the parts is textual); if instead it carries
no content parts and signals an escalation, the reply is
`"Agent escalated: <error message>"` with `"No specific message."`
substituted when the escalation carries no (or an empty) error message;
if neither, the reply is the empty string. -/
theorem chat_reply_determined_by_first_final_event (pre : List Event) (e : Event)
    (post : List Event) (hpre : hasFinal pre = false) (he : e.is_final = true) :
    Except.map AgentResult.response
        (get_response_from_agent (RunOutcome.ok (pre ++ e :: post))) =
      Except.ok
        (if e.hasVisibleParts then
          String.join ((e.visibleParts).filterMap truthyText)
        else if e.escalates then
          "Agent escalated: " ++ e.errorMessageOrDefault
        else "") := by
  simp only [get_response_from_agent, runnerLoop_none_eq, Except.map]
  rw [replyOf_decomp pre e post hpre he]
  rfl

/-- Witness for C2 at a concrete run: a final event with no content
whose escalation carries no error message yields exactly
`"Agent escalated: No specific message."`. -/
theorem chat_reply_determined_by_first_final_event_witness :
    Except.map AgentResult.response
        (get_response_from_agent (RunOutcome.ok ([] ++ escalationNoMessageFinalEvent :: []))) =
      Except.ok
        (if escalationNoMessageFinalEvent.hasVisibleParts then
          String.join ((escalationNoMessageFinalEvent.visibleParts).filterMap truthyText)
        else if escalationNoMessageFinalEvent.escalates then
          "Agent escalated: " ++ escalationNoMessageFinalEvent.errorMessageOrDefault
        else "") ∧
    (if escalationNoMessageFinalEvent.hasVisibleParts then
      String.join ((escalationNoMessageFinalEvent.visibleParts).filterMap truthyText)
    else if escalationNoMessageFinalEvent.escalates then
      "Agent escalated: " ++ escalationNoMessageFinalEvent.errorMessageOrDefault
    else "") = "Agent escalated: No specific message." :=
  ⟨chat_reply_determined_by_first_final_event [] escalationNoMessageFinalEvent [] rfl rfl,
   by decide⟩

/-- C3 counterexample: on a runner sequence with no final-flagged event
(`/chat` handles this case, see C9), the stream ends without emitting
any `final_response` frame, so "always terminates with exactly one
final_response frame" fails. -/
theorem stream_single_final_frame_refuted :
    generate_stream (RunOutcome.ok [plainNonFinalEvent]) = [] ∧
    ((generate_stream (RunOutcome.ok [plainNonFinalEvent])).filter isFinalFrame).length = 0 ∧
    (0 : Nat) ≠ 1 := by
  refine ⟨rfl, rfl, ?_⟩
  decide

/-- C3 (amended: restricted to sequences containing a final-flagged
event): the stream is exactly the per-part tool frames of the events up
to and including the first final-flagged event, in arrival order,
followed by one `final_response` frame; that frame is the only
`final_response` frame and is last — also when there are zero tool
frames. -/
theorem stream_frames_ordered_single_final (events : List Event)
    (h : hasFinal events = true) :
    generate_stream (RunOutcome.ok events) =
      (observedEvents events).flatMap eventFrames ++
        [Frame.final_response (replyOf events)] ∧
    (generate_stream (RunOutcome.ok events)).filter isFinalFrame =
      [Frame.final_response (replyOf events)] ∧
    (generate_stream (RunOutcome.ok events)).getLast? =
      some (Frame.final_response (replyOf events)) := by
  obtain ⟨pre, e, post, heq, hpre, he, hff, hobs⟩ := exists_first_final events h
  have hstream : generate_stream (RunOutcome.ok events) =
      (observedEvents events).flatMap eventFrames ++
        [Frame.final_response (replyOf events)] := by
    rw [heq, replyOf_decomp pre e post hpre he]
    rw [heq] at hobs
    rw [hobs]
    exact streamLoop_decomp pre e post none hpre he
  refine ⟨hstream, ?_, ?_⟩
  · rw [hstream, List.filter_append]
    have hnil : ((observedEvents events).flatMap eventFrames).filter isFinalFrame = [] := by
      rw [List.filter_eq_nil_iff]
      intro f hf
      rw [List.mem_flatMap] at hf
      obtain ⟨ev, _, hfev⟩ := hf
      simp [eventFrames_no_finalFrame ev f hfev]
    rw [hnil]
    rfl
  · rw [hstream]
    simp

/-- Witness for C3 at a concrete run with zero tool events: a single
final-flagged text event streams exactly one frame, the final one. -/
theorem stream_frames_ordered_single_final_witness :
    generate_stream (RunOutcome.ok [sampleFinalEvent]) =
      (observedEvents [sampleFinalEvent]).flatMap eventFrames ++
        [Frame.final_response (replyOf [sampleFinalEvent])] ∧
    (generate_stream (RunOutcome.ok [sampleFinalEvent])).getLast? =
      some (Frame.final_response (replyOf [sampleFinalEvent])) :=
  ⟨(stream_frames_ordered_single_final [sampleFinalEvent] rfl).1,
   (stream_frames_ordered_single_final [sampleFinalEvent] rfl).2.2⟩

/-- C4: a function-response part whose payload is a mapping containing
the key `"response"` records exactly the value under that key (the
outer mapping is discarded); any other payload is recorded whole.  The
rule is stated on the shared formatter, connected to both the `/chat`
aggregate and the `/chat/stream` frames, and instantiated at the
payload `{"response": "X", "other": "Y"}`, which records exactly
`"X"`. -/
theorem tool_response_unwraps_response_key :
    (∀ (fields : List (String × JsonVal)) (v : JsonVal),
      lookupKey fields "response" = some v →
        formatResponseContent (JsonVal.obj fields) = v) ∧
    (∀ rc : JsonVal,
      (match rc with
       | JsonVal.obj fields => (lookupKey fields "response").isNone
       | _ => true) = true →
      formatResponseContent rc = rc) ∧
    (∀ (name : Option String) (payload : JsonVal),
      Except.map AgentResult.tool_responses
          (get_response_from_agent (RunOutcome.ok [respEvent name payload])) =
        Except.ok [⟨name, formatResponseContent payload⟩] ∧
      generate_stream (RunOutcome.ok [respEvent name payload]) =
        [Frame.tool_response name (formatResponseContent payload)]) ∧
    Except.map AgentResult.tool_responses
        (get_response_from_agent (RunOutcome.ok
          [respEvent (some "t")
            (JsonVal.obj [("response", JsonVal.str "X"), ("other", JsonVal.str "Y")])])) =
      Except.ok [⟨some "t", JsonVal.str "X"⟩] := by
  refine ⟨?_, ?_, ?_, ?_⟩
  · intro fields v hv
    simp [formatResponseContent, hv]
  · intro rc hrc
    cases rc with
    | obj fields =>
      simp only [Option.isNone_iff_eq_none] at hrc
      simp [formatResponseContent, hrc]
    | null => rfl
    | bool b => rfl
    | num n => rfl
    | str s => rfl
    | arr xs => rfl
  · intro name payload
    exact ⟨rfl, rfl⟩
  · rfl

/-- Witness for C4: the formatter evaluated at the claim's synthetic
payload and at a non-mapping payload. -/
theorem tool_response_unwraps_response_key_witness :
    formatResponseContent
        (JsonVal.obj [("response", JsonVal.str "X"), ("other", JsonVal.str "Y")]) =
      JsonVal.str "X" ∧
    formatResponseContent (JsonVal.str "Z") = JsonVal.str "Z" :=
  ⟨tool_response_unwraps_response_key.1
      [("response", JsonVal.str "X"), ("other", JsonVal.str "Y")] (JsonVal.str "X") rfl,
   tool_response_unwraps_response_key.2.1 (JsonVal.str "Z") rfl⟩

/-- C5: when an exception with string form `exn` is raised while
invoking the runner or iterating its events (so the loop is still
iterating, i.e. no earlier event was final-flagged), `/chat` answers
with an `HTTPException` of status 500 whose detail contains `exn`, and
no success payload — in particular no partial aggregate — is returned. -/
theorem chat_exception_yields_500 (events : List Event) (exn : String)
    (h : hasFinal events = false) :
    chat (RunOutcome.err events exn) =
      Except.error ⟨500, "Error processing request: " ++ exn⟩ ∧
    ∀ resp : ChatResponse, chat (RunOutcome.err events exn) ≠ Except.ok resp := by
  have hloop := runnerLoop_some_of_noFinal events exn [] [] h
  constructor
  · simp [chat, get_response_from_agent, hloop]
  · intro resp
    simp [chat, get_response_from_agent, hloop]

/-- Witness for C5: an invocation that yields one tool event and then
raises `"boom"` produces exactly the 500 error. -/
theorem chat_exception_yields_500_witness :
    chat (RunOutcome.err [sampleToolEvent] "boom") =
      Except.error ⟨500, "Error processing request: " ++ "boom"⟩ :=
  (chat_exception_yields_500 [sampleToolEvent] "boom" rfl).1

/-- C6: when an exception with string form `exn` is raised during
`/chat/stream`'s invocation or iteration (no earlier event was
final-flagged, otherwise the `break` abandons the iterator before the
raise), the stream is the frames emitted so far followed by exactly one
`error` frame carrying `exn`; that frame is the only error frame and is
last, and the generator returns a frame list rather than propagating
(`generate_stream` is total). -/
theorem stream_exception_single_error_frame (events : List Event) (exn : String)
    (h : hasFinal events = false) :
    generate_stream (RunOutcome.err events exn) =
      events.flatMap eventFrames ++ [Frame.error exn] ∧
    (generate_stream (RunOutcome.err events exn)).filter isErrorFrame =
      [Frame.error exn] ∧
    (generate_stream (RunOutcome.err events exn)).getLast? =
      some (Frame.error exn) := by
  have hstream : generate_stream (RunOutcome.err events exn) =
      events.flatMap eventFrames ++ [Frame.error exn] :=
    streamLoop_some_of_noFinal events exn h
  refine ⟨hstream, ?_, ?_⟩
  · rw [hstream, List.filter_append]
    have hnil : (events.flatMap eventFrames).filter isErrorFrame = [] := by
      rw [List.filter_eq_nil_iff]
      intro f hf
      rw [List.mem_flatMap] at hf
      obtain ⟨ev, _, hfev⟩ := hf
      simp [eventFrames_no_errorFrame ev f hfev]
    rw [hnil]
    rfl
  · rw [hstream]
    simp

/-- Witness for C6: a run that yields one tool event and then raises
`"boom"` streams the two tool frames and then the error frame, last. -/
theorem stream_exception_single_error_frame_witness :
    generate_stream (RunOutcome.err [sampleToolEvent] "boom") =
      [sampleToolEvent].flatMap eventFrames ++ [Frame.error "boom"] ∧
    (generate_stream (RunOutcome.err [sampleToolEvent] "boom")).getLast? =
      some (Frame.error "boom") :=
  ⟨(stream_exception_single_error_frame [sampleToolEvent] "boom" rfl).1,
   (stream_exception_single_error_frame [sampleToolEvent] "boom" rfl).2.2⟩

/-- C7: `GET /health` answers 200 with exactly
`{status: "healthy", service: "a2a-host-agent", version: "1.0.0"}`; the
handler is a constant function of no state, so it has no side
effects. -/
theorem health_constant_response :
    healthEndpoint = (200, ⟨"healthy", "a2a-host-agent", "1.0.0"⟩) ∧
    health_check = ⟨"healthy", "a2a-host-agent", "1.0.0"⟩ :=
  ⟨rfl, rfl⟩

/-- C8: the startup handler never propagates a session-creation
failure: for every outcome of `create_session` it returns normally, and
on an exception it only logs the error line. -/
theorem startup_failure_is_caught :
    (∀ create : Except String Unit, (startup_event create).isOk = true) ∧
    (∀ e : String, startup_event (Except.error e) =
      Except.ok ["Creating ADK session...", "Error creating ADK session: " ++ e]) := by
  constructor
  · intro create
    cases create <;> rfl
  · intro e
    rfl

/-- C9: when the runner's event sequence is exhausted without any
final-flagged event, `/chat` succeeds with an empty reply and the tool
records accumulated from the entire sequence. -/
theorem chat_no_final_returns_full_aggregate (events : List Event)
    (h : hasFinal events = false) :
    chat (RunOutcome.ok events) =
      Except.ok ⟨"", some (events.flatMap eventToolCalls),
        some (events.flatMap eventToolResponses)⟩ := by
  have h1 := runnerLoop_none_eq events [] []
  rw [observedEvents_of_noFinal events h] at h1
  have h2 : replyOf events = "" := by
    simp [replyOf, firstFinal_of_noFinal events h]
  rw [h2] at h1
  simp [chat, get_response_from_agent, h1]

/-- Witness for C9: a single non-final tool event yields a success with
empty reply and both tool records. -/
theorem chat_no_final_returns_full_aggregate_witness :
    chat (RunOutcome.ok [sampleToolEvent]) =
      Except.ok ⟨"", some ([sampleToolEvent].flatMap eventToolCalls),
        some ([sampleToolEvent].flatMap eventToolResponses)⟩ :=
  chat_no_final_returns_full_aggregate [sampleToolEvent] rfl

/-- C10: the `"arguments"` field of a recorded tool call — in both
`/chat` and `/chat/stream` — is `model_dump(exclude_none=True)` of the
entire function-call object: it contains the function name again under
the key `"name"` (and the argument mapping under `"args"` when set),
while `None`-valued fields are omitted. -/
theorem tool_call_arguments_full_dump (fc : FunctionCall) (n : String)
    (h : fc.name = some n) :
    Except.map AgentResult.tool_calls
        (get_response_from_agent (RunOutcome.ok [callEvent fc])) =
      Except.ok [⟨fc.name, fc.model_dump_exclude_none⟩] ∧
    generate_stream (RunOutcome.ok [callEvent fc]) =
      [Frame.tool_call fc.name fc.model_dump_exclude_none] ∧
    ("name", JsonVal.str n) ∈ fc.model_dump_exclude_none ∧
    (∀ a : JsonVal, fc.args = some a → ("args", a) ∈ fc.model_dump_exclude_none) ∧
    (fc.id = none → ∀ v : JsonVal, ("id", v) ∉ fc.model_dump_exclude_none) := by
  refine ⟨rfl, rfl, ?_, ?_, ?_⟩
  · simp [FunctionCall.model_dump_exclude_none, h]
  · intro a ha
    simp [FunctionCall.model_dump_exclude_none, ha]
  · intro hid v
    cases ha : fc.args <;>
      simp [FunctionCall.model_dump_exclude_none, hid, ha, h]

/-- Witness for C10: the sample call's dump flows through the stream
and contains the name entry. -/
theorem tool_call_arguments_full_dump_witness :
    generate_stream (RunOutcome.ok [callEvent sampleFc]) =
      [Frame.tool_call sampleFc.name sampleFc.model_dump_exclude_none] ∧
    ("name", JsonVal.str "get_weather") ∈ sampleFc.model_dump_exclude_none :=
  ⟨(tool_call_arguments_full_dump sampleFc "get_weather" rfl).2.1,
   (tool_call_arguments_full_dump sampleFc "get_weather" rfl).2.2.1⟩

end HostAgent
